import Mathlib

/-!
Verification development for `archive-giphy` (`src/main.rs`), a batch tool
that paginates a cursor-based feed and downloads each item's source asset
into a deterministic, resumable file layout.

The Rust source is shallowly embedded below:
pure computations become Lean functions, external effects (HTTP client,
filesystem, `serde_json` decoding) become oracle parameters, and stateful
code threads an explicit filesystem state.  Machine integers are modelled
as `Nat` (none of the verified properties touch overflow).
-/

namespace ArchiveGiphy

/-! ## String helpers modelling Rust `str` operations -/

/-- Rust `str::split_once(c)` on a character list: split at the *first*
occurrence of `c`, returning the parts before and after it. -/
def splitOnceList (c : Char) : List Char → Option (List Char × List Char)
  | [] => none
  | x :: xs =>
    if x = c then some ([], xs)
    else (splitOnceList c xs).map (fun p => (x :: p.1, p.2))

/-- Rust `str::split_once(c)` on strings. -/
def splitOnceStr (s : String) (c : Char) : Option (String × String) :=
  (splitOnceList c s.toList).map (fun p => (String.mk p.1, String.mk p.2))

/-- Rust `str::rsplit_once(c)`: split at the *last* occurrence of `c`,
returning `(before, after)`. -/
def rsplitOnceStr (s : String) (c : Char) : Option (String × String) :=
  (splitOnceList c s.toList.reverse).map
    (fun p => (String.mk p.2.reverse, String.mk p.1.reverse))

/-- Rust `str::replace('-', "")`: remove every `-` character. -/
def removeDashes (s : String) : String :=
  String.mk (s.toList.filter (fun ch => ch ≠ '-'))

/-- Rust format `{:012}` on an unsigned integer: decimal digits left-padded
with zeros to at least 12 characters. -/
def pad12 (n : Nat) : String :=
  String.mk (List.replicate (12 - (toString n).length) '0') ++ toString n


/-! ## Data model (from `src/main.rs` lines 36-70)

`serde_json::Value` becomes an inductive `Json`; `HashMap` becomes an
association list looked up with `List.lookup`. -/

/-- `serde_json::Value`. -/
inductive Json where
  | null : Json
  | bool (b : Bool) : Json
  | num (n : Int) : Json
  | str (s : String) : Json
  | arr (elems : List Json) : Json
  | obj (fields : List (String × Json)) : Json

/-- `serde_json::Value::get(key)` with a string key: object field lookup,
`None` on every non-object value. -/
def Json.getKey (j : Json) (key : String) : Option Json :=
  match j with
  | .obj fields => fields.lookup key
  | _ => none

/-- `serde_json::Value::as_str()`. -/
def Json.asStr (j : Json) : Option String :=
  match j with
  | .str s => some s
  | _ => none

structure GiphyUser where
  id : Nat
  name : String
  username : String

structure GiphyGif where
  id : String
  index_id : Nat
  images : List (String × Json)
  title : String
  user : GiphyUser
  create_time : String

structure GiphyResponse where
  next : Option String
  results : List GiphyGif

/-- The error enum of the program (`GiphyError`), extended with the
variants of the wrapped external errors that `anyhow` propagates:
transport failures from `reqwest`, decode failures from `serde_json`,
and I/O failures from `tokio::fs`. -/
inductive GiphyError where
  | ResponseError (code : Nat) (url : String) : GiphyError
  | NoSourceVideo : GiphyError
  | InvalidDate (date : String) : GiphyError
  | TransportError (msg : String) : GiphyError
  | DecodeError (msg : String) : GiphyError
  | IOError (msg : String) : GiphyError
deriving DecidableEq

/-! ## AssetLocator and PathPlanner (from `_download_gif`, lines 140-168) -/

/-- Lines 140-151 of `_download_gif`: look up the `"source"` rendition,
its `"url"` string, and the extension after the last `.`; every failure
is `NoSourceVideo`. -/
def locate (g : GiphyGif) : Except GiphyError (String × String) :=
  match g.images.lookup "source" with
  | none => .error .NoSourceVideo
  | some v =>
    match v.getKey "url" with
    | none => .error .NoSourceVideo
    | some u =>
      match u.asStr with
      | none => .error .NoSourceVideo
      | some source_url =>
        match rsplitOnceStr source_url '.' with
        | none => .error .NoSourceVideo
        | some p => .ok (source_url, p.2)

/-- Lines 154-168 of `_download_gif` (pure part): date from
`create_time.split_once('T')` with dashes removed, the formatted file
name, and the destination directory `base_dir/username`.  Returns
`(directory, full path)`. -/
def planItem (g : GiphyGif) (ext : String) (baseDir : String) :
    Except GiphyError (String × String) :=
  match splitOnceStr g.create_time 'T' with
  | none => .error (.InvalidDate g.create_time)
  | some p =>
    let date := removeDashes p.1
    let filename :=
      date ++ "_" ++ g.user.username ++ "_" ++ pad12 g.index_id ++ "_" ++
        g.id ++ "." ++ ext
    let dir := baseDir ++ "/" ++ g.user.username
    .ok (dir, dir ++ "/" ++ filename)

/-- The planned destination path of an item, when both the locator and
the planner succeed. -/
def planPath (g : GiphyGif) (baseDir : String) : Option String :=
  match locate g with
  | .error _ => none
  | .ok le =>
    match planItem g le.2 baseDir with
    | .error _ => none
    | .ok p => some p.2

/-! ## Download phase (from `download` / `download_gif` / `_download_gif`)

The filesystem is an explicit state: an association list of file paths to
byte contents plus a set of existing directories.  The HTTP client and the
file write primitives are oracles (`DlEnv`); `_download_gif` threads the
state and records the asset requests it issues. -/

/-- File contents as raw bytes. -/
abbrev Bytes := List Nat

/-- Filesystem state: files (path to contents) and directories. -/
structure FsState where
  files : List (String × Bytes)
  dirs : List String
deriving DecidableEq

/-- `tokio::fs::create_dir_all`: idempotent directory creation. -/
def insertDir (d : String) (ds : List String) : List String :=
  if d ∈ ds then ds else d :: ds

/-- One asset HTTP response: status code and raw body, as produced by
`client.get(url).send()` followed by `.bytes()`. -/
structure AssetResp where
  status : Nat
  body : Bytes
deriving DecidableEq

/-- Behaviour of `fs::File::create` + `write_all` at a given path:
creation may fail, the body write may fail leaving whatever bytes were
flushed before the failure, or both succeed. -/
inductive WriteBehavior where
  | createFail : WriteBehavior
  | writeFail (leftover : Bytes) : WriteBehavior
  | allOk : WriteBehavior

/-- Oracles for the download phase: the asset fetch (transport error or a
response of any status — the code never inspects the status), directory
creation success, and file-write behaviour per path. -/
structure DlEnv where
  fetchAsset : String → Except GiphyError AssetResp
  mkdirOk : String → Bool
  writeBeh : String → WriteBehavior

instance {ε α : Type} [DecidableEq ε] [DecidableEq α] :
    DecidableEq (Except ε α) := fun a b =>
  match a, b with
  | .error e1, .error e2 =>
    if h : e1 = e2 then isTrue (by rw [h])
    else isFalse (by intro hh; cases hh; exact h rfl)
  | .error _, .ok _ => isFalse (by intro hh; cases hh)
  | .ok _, .error _ => isFalse (by intro hh; cases hh)
  | .ok v1, .ok v2 =>
    if h : v1 = v2 then isTrue (by rw [h])
    else isFalse (by intro hh; cases hh; exact h rfl)

/-- Result of one item's download task: the filesystem afterwards, the
asset requests issued, and the task's `Result<()>`. -/
structure DlStep where
  fs : FsState
  requests : List String
  result : Except GiphyError Unit
deriving DecidableEq

/-- `_download_gif` (lines 134-183): locate the source asset, plan the
path, create the directory, skip when the file exists, otherwise fetch
the asset (status never checked) and write its body. -/
def _download_gif (env : DlEnv) (g : GiphyGif) (baseDir : String)
    (fs : FsState) : DlStep :=
  match locate g with
  | .error e => ⟨fs, [], .error e⟩
  | .ok le =>
    let source_url := le.1
    match planItem g le.2 baseDir with
    | .error e => ⟨fs, [], .error e⟩
    | .ok dp =>
      let dir := dp.1
      let path := dp.2
      if env.mkdirOk dir then
        let fs1 : FsState := ⟨fs.files, insertDir dir fs.dirs⟩
        if (fs1.files.lookup path).isSome then
          ⟨fs1, [], .ok ()⟩
        else
          match env.fetchAsset source_url with
          | .error e => ⟨fs1, [source_url], .error e⟩
          | .ok resp =>
            match env.writeBeh path with
            | .createFail =>
              ⟨fs1, [source_url], .error (.IOError "create failed")⟩
            | .writeFail leftover =>
              ⟨⟨(path, leftover) :: fs1.files, fs1.dirs⟩, [source_url],
                .error (.IOError "write failed")⟩
            | .allOk =>
              ⟨⟨(path, resp.body) :: fs1.files, fs1.dirs⟩, [source_url],
                .ok ()⟩
      else ⟨fs, [], .error (.IOError "create_dir_all failed")⟩

/-- `download_gif` (lines 123-132): run `_download_gif`; the `anyhow`
context only annotates the error message with the item id, which the
batch model records alongside each outcome. -/
def download_gif (env : DlEnv) (g : GiphyGif) (baseDir : String)
    (fs : FsState) : DlStep :=
  _download_gif env g baseDir fs

/-- Outcome list entry: the item id (from the `context` annotation) and
the task's `Result<()>`. -/
abbrev Outcome := String × Except GiphyError Unit

/-- Result of the whole download phase. -/
structure BatchResult where
  fs : FsState
  requests : List String
  outcomes : List Outcome
deriving DecidableEq

/-- The download phase (lines 103-121), as the sequential linearisation
of the `buffer_unordered(20)` pool: every item is processed to its own
outcome against the shared filesystem. -/
def downloadRun (env : DlEnv) (gs : List GiphyGif) (baseDir : String)
    (fs : FsState) : BatchResult :=
  match gs with
  | [] => ⟨fs, [], []⟩
  | g :: rest =>
    let s := download_gif env g baseDir fs
    let r := downloadRun env rest baseDir s.fs
    ⟨r.fs, s.requests ++ r.requests, (g.id, s.result) :: r.outcomes⟩

/-- `download` (lines 103-121): collect all outcomes, print the failures,
and return `Ok(())` — per-item errors never escape the phase. -/
def download (env : DlEnv) (gs : List GiphyGif) (baseDir : String)
    (fs : FsState) : BatchResult × Except GiphyError Unit :=
  (downloadRun env gs baseDir fs, .ok ())

/-! ## Pagination (from `gifs`, lines 72-101)

`client.get(url).send()` (together with `.text()`) is an oracle `send`
returning a transport error or a raw response; `serde_json::from_str` is
an oracle `decode`.  The Rust loop `for i in 1..` is unbounded, so the
embedding takes a fuel parameter; `none` means the fuel ran out before
the loop terminated.  The returned list records every request issued. -/

/-- One raw page response: HTTP status and body text. -/
structure HttpPage where
  status : Nat
  body : String

/-- `reqwest::StatusCode::is_success()`: the 2xx range. -/
def isSuccessStatus (s : Nat) : Prop := 200 ≤ s ∧ s < 300

instance (s : Nat) : Decidable (isSuccessStatus s) := by
  unfold isSuccessStatus; infer_instance

/-- The seed URL built from the member id (line 74). -/
def seedUrl (memberId : Nat) : String :=
  "https://giphy.com/api/v4/channels/" ++ toString memberId ++ "/feed"

/-- The loop body of `gifs` (lines 76-98): send, check status, decode,
append the results, follow `next` or stop.  Returns the list of requests
issued and (fuel permitting) the final `Result<Vec<GiphyGif>>`. -/
def gifsAux (send : String → Except GiphyError HttpPage)
    (decode : String → Except GiphyError GiphyResponse) :
    Nat → String → List GiphyGif →
      List String × Option (Except GiphyError (List GiphyGif))
  | 0, _, _ => ([], none)
  | fuel + 1, url, acc =>
    match send url with
    | .error e => ([url], some (.error e))
    | .ok resp =>
      if isSuccessStatus resp.status then
        match decode resp.body with
        | .error e => ([url], some (.error e))
        | .ok page =>
          let acc := acc ++ page.results
          match page.next with
          | none => ([url], some (.ok acc))
          | some nextUrl =>
            let rest := gifsAux send decode fuel nextUrl acc
            (url :: rest.1, rest.2)
      else ([url], some (.error (.ResponseError resp.status url)))

/-- `gifs` (lines 72-101): run the pagination loop from the seed URL. -/
def gifs (send : String → Except GiphyError HttpPage)
    (decode : String → Except GiphyError GiphyResponse)
    (fuel : Nat) (memberId : Nat) :
    List String × Option (Except GiphyError (List GiphyGif)) :=
  gifsAux send decode fuel (seedUrl memberId) []

/-- A well-formed page chain: starting at `url`, each fetch succeeds with
a 2xx status and decodes to the corresponding page, each page's `next`
is the following request URL, and only the last page's `next` is absent.
`urls` collects the request URLs of the chain in order. -/
inductive PageChain (send : String → Except GiphyError HttpPage)
    (decode : String → Except GiphyError GiphyResponse) :
    String → List GiphyResponse → List String → Prop where
  | last (url : String) (resp : HttpPage) (page : GiphyResponse) :
      send url = .ok resp → isSuccessStatus resp.status →
      decode resp.body = .ok page → page.next = none →
      PageChain send decode url [page] [url]
  | cons (url nextUrl : String) (resp : HttpPage) (page : GiphyResponse)
      (pages : List GiphyResponse) (urls : List String) :
      send url = .ok resp → isSuccessStatus resp.status →
      decode resp.body = .ok page → page.next = some nextUrl →
      PageChain send decode nextUrl pages urls →
      PageChain send decode url (page :: pages) (url :: urls)

/-- `Follows send decode url k url'`: from `url`, `k` consecutive pages
fetch successfully (2xx, decodable) and their `next` cursors lead to
`url'`. -/
inductive Follows (send : String → Except GiphyError HttpPage)
    (decode : String → Except GiphyError GiphyResponse) :
    String → Nat → String → Prop where
  | zero (url : String) : Follows send decode url 0 url
  | succ (url nextUrl finalUrl : String) (resp : HttpPage)
      (page : GiphyResponse) (k : Nat) :
      send url = .ok resp → isSuccessStatus resp.status →
      decode resp.body = .ok page → page.next = some nextUrl →
      Follows send decode nextUrl k finalUrl →
      Follows send decode url (k + 1) finalUrl

/-! ## The full pipeline (`main`, lines 24-34) -/

/-- Result of one run of `main`: page requests, asset requests, final
filesystem, the process result, and the per-item outcomes. -/
structure PipelineResult where
  pageRequests : List String
  assetRequests : List String
  fs : FsState
  result : Except GiphyError Unit
  outcomes : List Outcome

/-- `main` (lines 24-34): fetch all pages, then (only on success) run
the download phase.  `none` if the pagination fuel ran out. -/
def runPipeline (send : String → Except GiphyError HttpPage)
    (decode : String → Except GiphyError GiphyResponse) (env : DlEnv)
    (fuel : Nat) (memberId : Nat) (baseDir : String) (fs : FsState) :
    Option PipelineResult :=
  match gifs send decode fuel memberId with
  | (_, none) => none
  | (preqs, some (.error e)) => some ⟨preqs, [], fs, .error e, []⟩
  | (preqs, some (.ok gs)) =>
    let b := downloadRun env gs baseDir fs
    some ⟨preqs, b.requests, b.fs, .ok (), b.outcomes⟩

/-! ## Concurrency model of the worker pool (line 108-112)

`futures::stream::iter(...).buffer_unordered(20).collect()` drives at
most 20 item futures at once and completes only when every future has
finished.  Its scheduling is modelled as a transition system counting
pending, in-flight and finished tasks: a task may start only while fewer
than the limit are in flight, and any in-flight task may finish.
Reporting (the `for r in results` loop) runs only after `collect`
returns, i.e. from a drained state. -/

/-- The `buffer_unordered` argument at line 110. -/
def DOWNLOAD_CONCURRENCY : Nat := 20

/-- Pool scheduler state: tasks not yet started, currently in flight,
and finished. -/
structure PoolState where
  pending : Nat
  inflight : Nat
  finished : Nat
deriving DecidableEq

/-- One scheduling step of `buffer_unordered(DOWNLOAD_CONCURRENCY)`. -/
inductive PoolStep : PoolState → PoolState → Prop where
  | start (p i f : Nat) :
      i < DOWNLOAD_CONCURRENCY →
      PoolStep ⟨p + 1, i, f⟩ ⟨p, i + 1, f⟩
  | finish (p i f : Nat) :
      PoolStep ⟨p, i + 1, f⟩ ⟨p, i, f + 1⟩

/-- States reachable by the pool when downloading a batch of `n` items. -/
def PoolReachable (n : Nat) (s : PoolState) : Prop :=
  Relation.ReflTransGen PoolStep ⟨n, 0, 0⟩ s

/-- The state from which reporting runs: `collect` has returned, so no
task is pending or in flight. -/
def poolDrained (n : Nat) (s : PoolState) : Prop :=
  s.pending = 0 ∧ s.inflight = 0 ∧ s.finished = n

/-! ## Concrete test inputs

Small concrete items, oracles and filesystem states used to instantiate
the theorems below on closed inputs. -/

/-- A well-formed item: valid `source` rendition and timestamp. -/
def itemA : GiphyGif :=
  { id := "g1", index_id := 5,
    images := [("source", Json.obj [("url", Json.str "http://h/a.mp4")])],
    title := "a", user := { id := 1, name := "Alice", username := "alice" },
    create_time := "2020-01-02T03:04:05" }

/-- A second well-formed item of the same owner. -/
def itemB : GiphyGif :=
  { id := "g2", index_id := 6,
    images := [("source", Json.obj [("url", Json.str "http://h/b.gif")])],
    title := "b", user := { id := 1, name := "Alice", username := "alice" },
    create_time := "2020-01-03T03:04:05" }

/-- An item with no `"source"` rendition. -/
def itemNoSource : GiphyGif :=
  { id := "g3", index_id := 7,
    images := [("fixed_width", Json.obj [("url", Json.str "http://h/c.gif")])],
    title := "c", user := { id := 1, name := "Alice", username := "alice" },
    create_time := "2020-01-04T03:04:05" }

/-- An item whose `create_datetime` contains no `T`. -/
def itemNoT : GiphyGif :=
  { id := "g4", index_id := 8,
    images := [("source", Json.obj [("url", Json.str "http://h/d.mp4")])],
    title := "d", user := { id := 1, name := "Alice", username := "alice" },
    create_time := "2020-01-05 03:04:05" }

/-- `itemA`'s planned destination path under base directory `base`. -/
def pathA : String := "base/alice/20200102_alice_000000000005_g1.mp4"

/-- `itemB`'s planned destination path under base directory `base`. -/
def pathB : String := "base/alice/20200103_alice_000000000006_g2.gif"

/-- A download environment where every fetch and write succeeds. -/
def envA : DlEnv :=
  { fetchAsset := fun u =>
      if u = "http://h/a.mp4" then .ok ⟨200, [1, 2, 3]⟩
      else if u = "http://h/b.gif" then .ok ⟨200, [4, 5]⟩
      else .error (.TransportError "connection refused"),
    mkdirOk := fun _ => true,
    writeBeh := fun _ => .allOk }

/-- A download environment whose asset server answers `itemA`'s URL with
an HTTP 500 carrying an error body. -/
def env500 : DlEnv :=
  { fetchAsset := fun u =>
      if u = "http://h/a.mp4" then .ok ⟨500, [9, 9]⟩
      else .error (.TransportError "connection refused"),
    mkdirOk := fun _ => true,
    writeBeh := fun _ => .allOk }

/-- A download environment where the body write to `itemA`'s path fails
after the file was created, leaving a single byte behind. -/
def envWF : DlEnv :=
  { fetchAsset := fun u =>
      if u = "http://h/a.mp4" then .ok ⟨200, [1, 2, 3]⟩
      else .error (.TransportError "connection refused"),
    mkdirOk := fun _ => true,
    writeBeh := fun p => if p = pathA then .writeFail [1] else .allOk }

/-- First feed page: one item, cursor to `"u2"`. -/
def page1 : GiphyResponse := { next := some "u2", results := [itemA] }

/-- Second feed page: one item, no cursor. -/
def page2 : GiphyResponse := { next := none, results := [itemB] }

/-- A page server presenting the two-page chain for member 7. -/
def sendT : String → Except GiphyError HttpPage := fun u =>
  if u = seedUrl 7 then .ok ⟨200, "p1"⟩
  else if u = "u2" then .ok ⟨200, "p2"⟩
  else .error (.TransportError "connection refused")

/-- Decoder for `sendT`'s bodies. -/
def decodeT : String → Except GiphyError GiphyResponse := fun b =>
  if b = "p1" then .ok page1
  else if b = "p2" then .ok page2
  else .error (.DecodeError "invalid json")

/-- A page server answering every request with HTTP 500. -/
def sendBad : String → Except GiphyError HttpPage := fun _ =>
  .ok ⟨500, "internal server error"⟩

/-- A filesystem already holding both items' destination files. -/
def fsFull : FsState :=
  ⟨[(pathA, [1, 2, 3]), (pathB, [4, 5])], ["base/alice"]⟩

/-! ## General lemmas about the string helpers -/

theorem splitOnceList_eq_some {c : Char} :
    ∀ {xs a b : List Char},
      splitOnceList c xs = some (a, b) ↔ xs = a ++ c :: b ∧ c ∉ a := by
  intro xs
  induction xs with
  | nil =>
    intro a b
    simp [splitOnceList]
  | cons x xs ih =>
    intro a b
    by_cases hx : x = c
    · simp only [splitOnceList, if_pos hx, Option.some.injEq, Prod.mk.injEq]
      constructor
      · rintro ⟨ha, hb⟩
        exact ⟨by simp [← ha, ← hb, hx], by simp [← ha]⟩
      · rintro ⟨heq, hmem⟩
        cases a with
        | nil => simp_all
        | cons y ys =>
          simp only [List.cons_append, List.cons.injEq] at heq
          exact absurd (heq.1 ▸ hx ▸ List.mem_cons_self x ys) hmem
    · simp only [splitOnceList, if_neg hx, Option.map_eq_some']
      constructor
      · rintro ⟨⟨a', b'⟩, hsplit, heq⟩
        simp only [Prod.mk.injEq] at heq
        obtain ⟨ha, hb⟩ := heq
        obtain ⟨hxs, hnotin⟩ := (ih (a := a') (b := b')).1 hsplit
        subst hb
        constructor
        · simp [← ha, hxs]
        · intro hmem
          rcases List.mem_cons.1 (ha ▸ hmem) with h | h
          · exact hx h.symm
          · exact hnotin h
      · rintro ⟨heq, hmem⟩
        cases a with
        | nil =>
          simp only [List.nil_append, List.cons.injEq] at heq
          exact absurd heq.1 hx
        | cons y ys =>
          simp only [List.cons_append, List.cons.injEq] at heq
          refine ⟨(ys, b), ?_, ?_⟩
          · exact (ih (a := ys) (b := b)).2
              ⟨heq.2, fun h => hmem (List.mem_cons_of_mem _ h)⟩
          · simp [heq.1]

theorem splitOnceList_eq_none {c : Char} :
    ∀ {xs : List Char}, splitOnceList c xs = none ↔ c ∉ xs := by
  intro xs
  induction xs with
  | nil => simp [splitOnceList]
  | cons x xs ih =>
    by_cases hx : x = c
    · subst hx; simp [splitOnceList]
    · simp only [splitOnceList, if_neg hx, Option.map_eq_none', List.mem_cons]
      rw [ih]
      constructor
      · intro h hmem
        rcases hmem with h' | h'
        · exact hx h'.symm
        · exact h h'
      · intro h hmem
        exact h (Or.inr hmem)

/-- The part before the first occurrence of `c` is `takeWhile (· ≠ c)`. -/
theorem splitOnceList_fst_takeWhile {c : Char} {xs a b : List Char}
    (h : splitOnceList c xs = some (a, b)) :
    a = xs.takeWhile (fun ch => ch ≠ c) := by
  obtain ⟨heq, hmem⟩ := splitOnceList_eq_some.1 h
  subst heq
  clear h
  induction a with
  | nil => simp [List.takeWhile_cons]
  | cons y ys ih =>
    have hy : y ≠ c := fun hc => hmem (by simp [hc])
    have hys : c ∉ ys := fun hc => hmem (List.mem_cons_of_mem _ hc)
    have hdec : (decide (y ≠ c)) = true := by simp [hy]
    simp only [List.cons_append, List.takeWhile_cons, hdec, if_true,
      List.cons.injEq, true_and]
    exact ih hys

theorem rsplitOnceStr_eq_some {s : String} {c : Char} {a b : String} :
    rsplitOnceStr s c = some (a, b) ↔
      s.toList = a.toList ++ c :: b.toList ∧ c ∉ b.toList := by
  unfold rsplitOnceStr
  rw [Option.map_eq_some']
  constructor
  · rintro ⟨⟨p1, p2⟩, hsplit, heq⟩
    simp only [Prod.mk.injEq] at heq
    obtain ⟨ha, hb⟩ := heq
    obtain ⟨hrev, hnotin⟩ := splitOnceList_eq_some.1 hsplit
    have hs : s.toList = (p1 ++ c :: p2).reverse := by
      rw [← hrev, List.reverse_reverse]
    refine ⟨?_, ?_⟩
    · rw [hs, List.reverse_append, List.reverse_cons, ← ha, ← hb]
      simp [List.append_assoc]
    · rw [← hb]
      simpa using fun h => hnotin (by simpa using h)
  · rintro ⟨heq, hnotin⟩
    refine ⟨(b.toList.reverse, a.toList.reverse), ?_, ?_⟩
    · apply splitOnceList_eq_some.2
      refine ⟨?_, ?_⟩
      · rw [heq, List.reverse_append, List.reverse_cons]
        simp [List.append_assoc]
      · simpa using hnotin
    · simp

theorem rsplitOnceStr_eq_none {s : String} {c : Char} :
    rsplitOnceStr s c = none ↔ c ∉ s.toList := by
  unfold rsplitOnceStr
  rw [Option.map_eq_none']
  rw [splitOnceList_eq_none]
  simp

/-! ## Claim theorems -/

/-- C4.  Asset location fails with `NoSourceVideo` (the program's
`MissingSourceAsset`) exactly when the `"source"` rendition is absent, or
its `"url"` field is absent or not a string, or the url string contains
no `.`; otherwise it returns the url together with the extension — the
raw substring after the last `.` — with no further validation. -/
theorem locate_characterization (g : GiphyGif) :
    (locate g = .error .NoSourceVideo ↔
      g.images.lookup "source" = none ∨
      (∃ v, g.images.lookup "source" = some v ∧ v.getKey "url" = none) ∨
      (∃ v u, g.images.lookup "source" = some v ∧ v.getKey "url" = some u ∧
        u.asStr = none) ∨
      (∃ v u s, g.images.lookup "source" = some v ∧ v.getKey "url" = some u ∧
        u.asStr = some s ∧ '.' ∉ s.toList)) ∧
    (∀ url ext, locate g = .ok (url, ext) ↔
      ∃ v u, g.images.lookup "source" = some v ∧ v.getKey "url" = some u ∧
        u.asStr = some url ∧
        ∃ pre, url.toList = pre ++ '.' :: ext.toList ∧ '.' ∉ ext.toList) := by
  cases hsrc : g.images.lookup "source" with
  | none => simp [locate, hsrc]
  | some v =>
    cases hurl : v.getKey "url" with
    | none => simp [locate, hsrc, hurl]
    | some u =>
      cases hstr : u.asStr with
      | none => simp [locate, hsrc, hurl, hstr]
      | some s =>
        cases hsplit : rsplitOnceStr s '.' with
        | none =>
          have hnodot : '.' ∉ s.toList := rsplitOnceStr_eq_none.1 hsplit
          constructor
          · simp only [locate, hsrc, hurl, hstr, hsplit]
            constructor
            · intro _
              exact Or.inr (Or.inr (Or.inr ⟨v, u, s, rfl, hurl, hstr, hnodot⟩))
            · intro _; trivial
          · intro url ext
            simp only [locate, hsrc, hurl, hstr, hsplit]
            constructor
            · intro h; cases h
            · rintro ⟨v', u', hv', hu', hs', pre, hdecomp, -⟩
              obtain rfl : v = v' := by injection hv'
              rw [hurl] at hu'
              obtain rfl : u = u' := by injection hu'
              rw [hstr] at hs'
              obtain rfl : s = url := by injection hs'
              exact absurd (hdecomp ▸ List.mem_append_right pre
                (List.mem_cons_self '.' ext.toList)) hnodot
        | some p =>
          obtain ⟨a, b⟩ := p
          obtain ⟨hdec, hnot⟩ := rsplitOnceStr_eq_some.1 hsplit
          constructor
          · simp only [locate, hsrc, hurl, hstr, hsplit]
            constructor
            · intro h; cases h
            · rintro (h | ⟨v', hv', hu'⟩ | ⟨v', u', hv', hu', hs'⟩ |
                ⟨v', u', s', hv', hu', hs', hnodot⟩)
              · cases h
              · obtain rfl : v = v' := by injection hv'
                rw [hurl] at hu'; cases hu'
              · obtain rfl : v = v' := by injection hv'
                rw [hurl] at hu'
                obtain rfl : u = u' := by injection hu'
                rw [hstr] at hs'; cases hs'
              · obtain rfl : v = v' := by injection hv'
                rw [hurl] at hu'
                obtain rfl : u = u' := by injection hu'
                rw [hstr] at hs'
                obtain rfl : s = s' := by injection hs'
                exact absurd (hdec ▸ List.mem_append_right a.toList
                  (List.mem_cons_self '.' b.toList)) hnodot
          · intro url ext
            simp only [locate, hsrc, hurl, hstr, hsplit, Except.ok.injEq,
              Prod.mk.injEq]
            constructor
            · rintro ⟨rfl, rfl⟩
              exact ⟨v, u, rfl, hurl, hstr, a.toList, hdec, hnot⟩
            · rintro ⟨v', u', hv', hu', hs', pre, hdecomp, hnodot⟩
              obtain rfl : v = v' := by injection hv'
              rw [hurl] at hu'
              obtain rfl : u = u' := by injection hu'
              rw [hstr] at hs'
              obtain rfl : s = url := by injection hs'
              have hsplit2 : rsplitOnceStr s '.' = some (String.mk pre, ext) :=
                rsplitOnceStr_eq_some.2 ⟨hdecomp, hnodot⟩
              rw [hsplit] at hsplit2
              obtain ⟨-, hb⟩ : a = String.mk pre ∧ b = ext := by
                have := Option.some.inj hsplit2
                exact ⟨congrArg Prod.fst this, congrArg Prod.snd this⟩
              exact ⟨rfl, hb⟩

/-- Witness for C4 at concrete items: `itemA` locates its source url and
extension, and `itemNoSource` fails with `NoSourceVideo`. -/
theorem locate_characterization_witness :
    locate itemA = .ok ("http://h/a.mp4", "mp4") ∧
    locate itemNoSource = .error .NoSourceVideo := by
  constructor
  · exact ((locate_characterization itemA).2 "http://h/a.mp4" "mp4").2
      ⟨Json.obj [("url", Json.str "http://h/a.mp4")], Json.str "http://h/a.mp4",
        rfl, rfl, rfl, "http://h/a".toList, by decide, by decide⟩
  · exact (locate_characterization itemNoSource).1.2 (Or.inl rfl)

/-- C5.  For an item whose `create_datetime` contains a `T`, planning
returns directory `baseDir/username` and file name
`{datePart}_{username}_{index padded to 12 digits}_{id}.{ext}` where
`datePart` is the part of the timestamp before the first `T` with all
`-` removed; without a `T` it fails with `InvalidDate` carrying the raw
timestamp. -/
theorem planItem_characterization (g : GiphyGif) (ext baseDir : String) :
    ('T' ∈ g.create_time.toList →
      planItem g ext baseDir = .ok
        (baseDir ++ "/" ++ g.user.username,
         baseDir ++ "/" ++ g.user.username ++ "/" ++
           (String.mk ((g.create_time.toList.takeWhile
               (fun ch => ch ≠ 'T')).filter (fun ch => ch ≠ '-')) ++
             "_" ++ g.user.username ++ "_" ++ pad12 g.index_id ++ "_" ++
             g.id ++ "." ++ ext))) ∧
    ('T' ∉ g.create_time.toList →
      planItem g ext baseDir = .error (.InvalidDate g.create_time)) := by
  constructor
  · intro hT
    cases hsplit : splitOnceList 'T' g.create_time.toList with
    | none => exact absurd hT (splitOnceList_eq_none.1 hsplit)
    | some p =>
      obtain ⟨a, b⟩ := p
      have ha : a = g.create_time.toList.takeWhile (fun ch => ch ≠ 'T') :=
        splitOnceList_fst_takeWhile hsplit
      subst ha
      simp only [planItem, splitOnceStr, hsplit, Option.map_some']
      simp [removeDashes]
  · intro hT
    have hsplit : splitOnceList 'T' g.create_time.toList = none :=
      splitOnceList_eq_none.2 hT
    simp only [planItem, splitOnceStr, hsplit, Option.map_none']

/-- Witness for C5 at concrete items: `itemA`'s planned directory and
path, and `itemNoT`'s `InvalidDate` failure. -/
theorem planItem_characterization_witness :
    planItem itemA "mp4" "base" = .ok ("base/alice", pathA) ∧
    planItem itemNoT "mp4" "base" =
      .error (.InvalidDate "2020-01-05 03:04:05") := by
  constructor
  · exact (planItem_characterization itemA "mp4" "base").1 (by decide)
  · exact (planItem_characterization itemNoT "mp4" "base").2 (by decide)

theorem pageChain_urls_length {send : String → Except GiphyError HttpPage}
    {decode : String → Except GiphyError GiphyResponse}
    {url : String} {pages : List GiphyResponse} {urls : List String}
    (h : PageChain send decode url pages urls) :
    urls.length = pages.length := by
  induction h with
  | last => rfl
  | cons _ _ _ _ _ _ _ _ _ _ _ ih => simpa using ih

theorem gifsAux_pageChain (send : String → Except GiphyError HttpPage)
    (decode : String → Except GiphyError GiphyResponse)
    {url : String} {pages : List GiphyResponse} {urls : List String}
    (hchain : PageChain send decode url pages urls) :
    ∀ (fuel : Nat) (acc : List GiphyGif), pages.length ≤ fuel →
      gifsAux send decode fuel url acc =
        (urls, some (.ok (acc ++ (pages.map GiphyResponse.results).flatten))) := by
  induction hchain with
  | last url resp page hsend hsucc hdecode hnext =>
    intro fuel acc hfuel
    match fuel, hfuel with
    | fuel + 1, _ =>
      simp [gifsAux, hsend, if_pos hsucc, hdecode, hnext]
  | cons url nextUrl resp page pages urls hsend hsucc hdecode hnext _ ih =>
    intro fuel acc hfuel
    match fuel, hfuel with
    | fuel + 1, hfuel =>
      have hrec := ih fuel (acc ++ page.results) (by simpa using hfuel)
      simp [gifsAux, hsend, if_pos hsucc, hdecode, hnext, hrec,
        List.append_assoc]

/-- C1.  For a finite chain of pages in which only the last has an
absent `next` cursor, pagination returns the concatenation of all pages'
items in page order, and the requests issued are exactly the chain's
URLs (the seed first, then each page's `next` cursor), one per page. -/
theorem gifs_paginates (send : String → Except GiphyError HttpPage)
    (decode : String → Except GiphyError GiphyResponse)
    (memberId fuel : Nat) (pages : List GiphyResponse) (urls : List String)
    (hchain : PageChain send decode (seedUrl memberId) pages urls)
    (hfuel : pages.length ≤ fuel) :
    gifs send decode fuel memberId =
      (urls, some (.ok ((pages.map GiphyResponse.results).flatten))) ∧
    urls.length = pages.length := by
  constructor
  · simpa [gifs] using gifsAux_pageChain send decode hchain fuel [] hfuel
  · exact pageChain_urls_length hchain

/-- Witness for C1: a concrete two-page chain for member 7 yields both
items after exactly two requests, the second directed at the first
page's cursor. -/
theorem gifs_paginates_witness :
    gifs sendT decodeT 5 7 =
      ([seedUrl 7, "u2"], some (.ok [itemA, itemB])) ∧
    ([seedUrl 7, "u2"] : List String).length = 2 := by
  have hchain :
      PageChain sendT decodeT (seedUrl 7) [page1, page2] [seedUrl 7, "u2"] := by
    refine PageChain.cons _ "u2" ⟨200, "p1"⟩ page1 _ _ rfl (by decide) rfl rfl ?_
    exact PageChain.last _ ⟨200, "p2"⟩ page2 rfl (by decide) rfl rfl
  have h := gifs_paginates sendT decodeT 7 5 [page1, page2] [seedUrl 7, "u2"]
    hchain (by decide)
  exact ⟨h.1, h.2⟩

theorem gifsAux_bad_status (send : String → Except GiphyError HttpPage)
    (decode : String → Except GiphyError GiphyResponse)
    {url : String} {k : Nat} {badUrl : String}
    (hfollow : Follows send decode url k badUrl) :
    ∀ {resp : HttpPage}, send badUrl = .ok resp →
      ¬ isSuccessStatus resp.status →
      ∀ (fuel : Nat) (acc : List GiphyGif), k < fuel →
        ∃ reqs, gifsAux send decode fuel url acc =
            (reqs, some (.error (.ResponseError resp.status badUrl))) ∧
          reqs.length = k + 1 := by
  induction hfollow with
  | zero url =>
    intro resp hsend hbad fuel acc hfuel
    match fuel, hfuel with
    | fuel + 1, _ =>
      exact ⟨[url], by simp [gifsAux, hsend, if_neg hbad], rfl⟩
  | succ url nextUrl finalUrl resp page k hsend hsucc hdecode hnext _ ih =>
    intro resp' hsend' hbad fuel acc hfuel
    match fuel, hfuel with
    | fuel + 1, hfuel =>
      obtain ⟨reqs, heq, hlen⟩ :=
        ih hsend' hbad fuel (acc ++ page.results) (by omega)
      refine ⟨url :: reqs, ?_, by simp [hlen]⟩
      simp [gifsAux, hsend, if_pos hsucc, hdecode, hnext, heq]

/-- C2.  If the first `k` pages fetch cleanly but the `(k+1)`-st request
returns a non-2xx status, the run terminates with `ResponseError`
carrying that status and URL after exactly `k+1` page requests, the
accumulated items are discarded (the pipeline result carries none), and
the download phase is never entered: no asset request, no outcome, and
an unchanged filesystem. -/
theorem gifs_fatal_on_bad_status (send : String → Except GiphyError HttpPage)
    (decode : String → Except GiphyError GiphyResponse) (env : DlEnv)
    (memberId fuel k : Nat) (badUrl : String) (resp : HttpPage)
    (baseDir : String) (fs : FsState)
    (hfollow : Follows send decode (seedUrl memberId) k badUrl)
    (hsend : send badUrl = .ok resp)
    (hbad : ¬ isSuccessStatus resp.status)
    (hfuel : k < fuel) :
    ∃ reqs,
      gifs send decode fuel memberId =
        (reqs, some (.error (.ResponseError resp.status badUrl))) ∧
      reqs.length = k + 1 ∧
      runPipeline send decode env fuel memberId baseDir fs =
        some ⟨reqs, [], fs, .error (.ResponseError resp.status badUrl), []⟩ := by
  obtain ⟨reqs, heq, hlen⟩ :=
    gifsAux_bad_status send decode hfollow hsend hbad fuel [] hfuel
  have heq' : gifs send decode fuel memberId =
      (reqs, some (.error (.ResponseError resp.status badUrl))) := by
    simpa [gifs] using heq
  exact ⟨reqs, heq', hlen, by simp [runPipeline, heq']⟩

/-- Witness for C2: a server answering the seed request with HTTP 500
terminates the concrete pipeline immediately: one request, an error
result, no asset traffic, no outcomes. -/
theorem gifs_fatal_on_bad_status_witness :
    ∃ reqs,
      gifs sendBad decodeT 3 7 =
        (reqs, some (.error (.ResponseError 500 (seedUrl 7)))) ∧
      reqs.length = 0 + 1 ∧
      runPipeline sendBad decodeT envA 3 7 "base" ⟨[], []⟩ =
        some ⟨reqs, [], ⟨[], []⟩, .error (.ResponseError 500 (seedUrl 7)), []⟩ :=
  gifs_fatal_on_bad_status sendBad decodeT envA 7 3 0 (seedUrl 7)
    ⟨500, "internal server error"⟩ "base" ⟨[], []⟩ (Follows.zero _) rfl
    (by decide) (by decide)

theorem _download_gif_populated (env : DlEnv) (g : GiphyGif)
    (baseDir : String) (fs : FsState)
    (h : ∀ p, planPath g baseDir = some p → (fs.files.lookup p).isSome) :
    (_download_gif env g baseDir fs).requests = [] ∧
    (_download_gif env g baseDir fs).fs.files = fs.files := by
  cases hloc : locate g with
  | error e => simp [_download_gif, hloc]
  | ok le =>
    cases hplan : planItem g le.2 baseDir with
    | error e => simp [_download_gif, hloc, hplan]
    | ok dp =>
      have hsome : (fs.files.lookup dp.2).isSome :=
        h dp.2 (by simp [planPath, hloc, hplan])
      by_cases hmk : env.mkdirOk dp.1
      · simp [_download_gif, hloc, hplan, hmk, hsome]
      · simp [_download_gif, hloc, hplan, hmk]

theorem downloadRun_populated (env : DlEnv) (baseDir : String) :
    ∀ (gs : List GiphyGif) (fs : FsState),
      (∀ g ∈ gs, ∀ p, planPath g baseDir = some p →
        (fs.files.lookup p).isSome) →
      (downloadRun env gs baseDir fs).requests = [] ∧
      (downloadRun env gs baseDir fs).fs.files = fs.files := by
  intro gs
  induction gs with
  | nil => intro fs _; simp [downloadRun]
  | cons g rest ih =>
    intro fs h
    obtain ⟨hreq, hfiles⟩ := _download_gif_populated env g baseDir fs
      (h g (List.mem_cons_self g rest))
    obtain ⟨hreq', hfiles'⟩ :=
      ih (_download_gif env g baseDir fs).fs (by
        intro g' hg' p hp
        rw [hfiles]
        exact h g' (List.mem_cons_of_mem g hg') p hp)
    refine ⟨?_, ?_⟩
    · simp [downloadRun, download_gif, hreq, hreq']
    · simp [downloadRun, download_gif, hfiles', hfiles]

/-- C3.  Idempotent resumability: whenever pagination succeeds and every
item's planned destination path is already a file in the destination
tree (a populated directory from a previous complete run), a run of the
full pipeline issues zero asset requests and leaves the file set
byte-identical — in particular no existing file is modified and each
such item's task makes no network call. -/
theorem pipeline_idempotent (send : String → Except GiphyError HttpPage)
    (decode : String → Except GiphyError GiphyResponse) (env : DlEnv)
    (fuel memberId : Nat) (baseDir : String) (fs : FsState)
    (preqs : List String) (gs : List GiphyGif)
    (hgifs : gifs send decode fuel memberId = (preqs, some (.ok gs)))
    (hpop : ∀ g ∈ gs, ∀ p, planPath g baseDir = some p →
      (fs.files.lookup p).isSome) :
    ∃ r, runPipeline send decode env fuel memberId baseDir fs = some r ∧
      r.assetRequests = [] ∧ r.fs.files = fs.files := by
  obtain ⟨hreq, hfiles⟩ := downloadRun_populated env baseDir gs fs hpop
  refine ⟨⟨preqs, (downloadRun env gs baseDir fs).requests,
    (downloadRun env gs baseDir fs).fs, .ok (),
    (downloadRun env gs baseDir fs).outcomes⟩, ?_, hreq, hfiles⟩
  simp [runPipeline, hgifs]

/-- Witness for C3: re-running the concrete two-page pipeline over a
filesystem already holding both destination files performs zero asset
requests and leaves the files untouched. -/
theorem pipeline_idempotent_witness :
    ∃ r, runPipeline sendT decodeT envA 5 7 "base" fsFull = some r ∧
      r.assetRequests = [] ∧ r.fs.files = fsFull.files := by
  refine pipeline_idempotent sendT decodeT envA 5 7 "base" fsFull
    [seedUrl 7, "u2"] [itemA, itemB] rfl ?_
  intro g hg p hp
  rcases List.mem_cons.1 hg with rfl | hg'
  · rw [show planPath itemA "base" = some pathA from rfl] at hp
    obtain rfl : pathA = p := by injection hp
    decide
  · rcases List.mem_cons.1 hg' with rfl | hg''
    · rw [show planPath itemB "base" = some pathB from rfl] at hp
      obtain rfl : pathB = p := by injection hp
      decide
    · cases hg''

/-- Counterexample for C6: `itemA`'s asset GET answers HTTP 500, yet the
task records `Ok` (no `ResponseError`) and writes the error body to the
destination file — the asset status is never checked. -/
theorem asset_status_unchecked_cex :
    (_download_gif env500 itemA "base" ⟨[], []⟩).result = .ok () ∧
    (_download_gif env500 itemA "base" ⟨[], []⟩).fs.files.lookup pathA =
      some [9, 9] := by decide

/-- C6 as amended.  For an item whose asset GET returns a non-2xx
response, the code does not inspect the status: when the destination
file is absent and the write succeeds, the response body is written to
the destination file and the item is recorded as success (`Ok`), with
the one asset request issued; no `ResponseError` is produced for asset
fetches. -/
theorem asset_status_unchecked (env : DlEnv) (g : GiphyGif)
    (baseDir url ext dir path : String) (fs : FsState) (resp : AssetResp)
    (hloc : locate g = .ok (url, ext))
    (hplan : planItem g ext baseDir = .ok (dir, path))
    (hmkdir : env.mkdirOk dir = true)
    (habsent : fs.files.lookup path = none)
    (hfetch : env.fetchAsset url = .ok resp)
    (_hbad : ¬ isSuccessStatus resp.status)
    (hwrite : env.writeBeh path = .allOk) :
    (_download_gif env g baseDir fs).result = .ok () ∧
    (_download_gif env g baseDir fs).requests = [url] ∧
    (_download_gif env g baseDir fs).fs.files.lookup path =
      some resp.body := by
  simp [_download_gif, hloc, hplan, hmkdir, habsent, hfetch, hwrite,
    List.lookup]

/-- Witness for C6's amended theorem at the concrete 500-status
environment. -/
theorem asset_status_unchecked_witness :
    (_download_gif env500 itemA "base" ⟨[], []⟩).result = .ok () ∧
    (_download_gif env500 itemA "base" ⟨[], []⟩).requests =
      ["http://h/a.mp4"] ∧
    (_download_gif env500 itemA "base" ⟨[], []⟩).fs.files.lookup pathA =
      some (⟨500, [9, 9]⟩ : AssetResp).body :=
  asset_status_unchecked env500 itemA "base" "http://h/a.mp4" "mp4"
    "base/alice" pathA ⟨[], []⟩ ⟨500, [9, 9]⟩ rfl rfl rfl rfl rfl
    (by decide) rfl

/-- C7.  Per-item failure isolation: the download phase always returns
`Ok` (per-item errors never escape it), and every item of the batch is
processed to exactly one outcome tagged with its own id — no failure
removes another item's outcome. -/
theorem download_isolates (env : DlEnv) (gs : List GiphyGif)
    (baseDir : String) (fs : FsState) :
    (download env gs baseDir fs).2 = .ok () ∧
    (download env gs baseDir fs).1.outcomes.map Prod.fst =
      gs.map GiphyGif.id := by
  refine ⟨rfl, ?_⟩
  unfold download
  induction gs generalizing fs with
  | nil => rfl
  | cons g rest ih => simp [downloadRun, ih]

/-- Counterexample for C8: an item whose destination file already exists
(no request issued) is recorded with the very same outcome value as the
same item actually downloaded (one request issued) — there is no
distinguishable `Skipped` outcome, both are `Ok(())`. -/
theorem skip_indistinguishable_cex :
    (_download_gif envA itemA "base"
      ⟨[(pathA, [1, 2, 3])], ["base/alice"]⟩).requests = [] ∧
    (_download_gif envA itemA "base" ⟨[], []⟩).requests =
      ["http://h/a.mp4"] ∧
    (_download_gif envA itemA "base"
        ⟨[(pathA, [1, 2, 3])], ["base/alice"]⟩).result =
      (_download_gif envA itemA "base" ⟨[], []⟩).result := by decide

/-- C8 as amended.  The recorded outcome of an item is a `Result<()>`
with exactly two cases, `Ok` and `Failed(error)`; an item whose
destination file already exists is recorded `Ok` with no network call
and an unchanged filesystem — the same outcome value as an actually
downloaded item, not a distinguishable `Skipped` case. -/
theorem skip_records_ok (env : DlEnv) (g : GiphyGif)
    (baseDir url ext dir path : String) (fs : FsState)
    (hloc : locate g = .ok (url, ext))
    (hplan : planItem g ext baseDir = .ok (dir, path))
    (hmkdir : env.mkdirOk dir = true)
    (hexists : (fs.files.lookup path).isSome) :
    (_download_gif env g baseDir fs).result = .ok () ∧
    (_download_gif env g baseDir fs).requests = [] ∧
    (_download_gif env g baseDir fs).fs.files = fs.files := by
  simp [_download_gif, hloc, hplan, hmkdir, hexists]

/-- Witness for C8's amended theorem: the concrete skip. -/
theorem skip_records_ok_witness :
    (_download_gif envA itemA "base"
      ⟨[(pathA, [1, 2, 3])], ["base/alice"]⟩).result = .ok () ∧
    (_download_gif envA itemA "base"
      ⟨[(pathA, [1, 2, 3])], ["base/alice"]⟩).requests = [] ∧
    (_download_gif envA itemA "base"
        ⟨[(pathA, [1, 2, 3])], ["base/alice"]⟩).fs.files =
      (⟨[(pathA, [1, 2, 3])], ["base/alice"]⟩ : FsState).files :=
  skip_records_ok envA itemA "base" "http://h/a.mp4" "mp4" "base/alice"
    pathA ⟨[(pathA, [1, 2, 3])], ["base/alice"]⟩ rfl rfl rfl (by decide)

theorem pool_can_drain :
    ∀ (p f : Nat), Relation.ReflTransGen PoolStep ⟨p, 0, f⟩ ⟨0, 0, f + p⟩ := by
  intro p
  induction p with
  | zero => intro f; simpa using Relation.ReflTransGen.refl
  | succ p ih =>
    intro f
    have h1 : PoolStep ⟨p + 1, 0, f⟩ ⟨p, 1, f⟩ :=
      PoolStep.start p 0 f (by simp [DOWNLOAD_CONCURRENCY])
    have h2 : PoolStep ⟨p, 1, f⟩ ⟨p, 0, f + 1⟩ := PoolStep.finish p 0 f
    have h3 := ih (f + 1)
    have heq : f + 1 + p = f + (p + 1) := by omega
    rw [heq] at h3
    exact Relation.ReflTransGen.head h1 (Relation.ReflTransGen.head h2 h3)

/-- C9.  In every state the pool scheduler can reach while downloading a
batch of `n` items, at most `DOWNLOAD_CONCURRENCY = 20` downloads are in
flight, tasks are conserved, and the drained state — zero pending, zero
in flight, all `n` finished, the state from which reporting runs — is
reachable. -/
theorem pool_bounded (n : Nat) (s : PoolState) (h : PoolReachable n s) :
    s.inflight ≤ DOWNLOAD_CONCURRENCY ∧
    s.pending + s.inflight + s.finished = n ∧
    PoolReachable n ⟨0, 0, n⟩ := by
  have hinv : s.inflight ≤ DOWNLOAD_CONCURRENCY ∧
      s.pending + s.inflight + s.finished = n := by
    unfold PoolReachable at h
    induction h with
    | refl => exact ⟨by simp [DOWNLOAD_CONCURRENCY], by simp⟩
    | tail hsteps hstep ih =>
      obtain ⟨ih1, ih2⟩ := ih
      cases hstep with
      | start p i f hlt =>
        simp only at ih1 ih2 ⊢
        omega
      | finish p i f =>
        simp only at ih1 ih2 ⊢
        omega
  refine ⟨hinv.1, hinv.2, ?_⟩
  have := pool_can_drain n 0
  simpa [PoolReachable] using this

/-- Witness for C9 at a batch of 21 items, from the initial state. -/
theorem pool_bounded_witness :
    (⟨21, 0, 0⟩ : PoolState).inflight ≤ DOWNLOAD_CONCURRENCY ∧
    (⟨21, 0, 0⟩ : PoolState).pending + (⟨21, 0, 0⟩ : PoolState).inflight +
      (⟨21, 0, 0⟩ : PoolState).finished = 21 ∧
    PoolReachable 21 ⟨0, 0, 21⟩ :=
  pool_bounded 21 ⟨21, 0, 0⟩ Relation.ReflTransGen.refl

/-- C10.  When the destination file is created but the body write fails,
the task records a failure, yet the created (truncated) file stays at
the destination path; a subsequent run of the same task therefore finds
the path present and skips the item — no request, `Ok` outcome, file
left as the truncated leftover rather than repaired. -/
theorem failed_write_persists (env : DlEnv) (g : GiphyGif)
    (baseDir url ext dir path : String) (fs : FsState) (resp : AssetResp)
    (leftover : Bytes)
    (hloc : locate g = .ok (url, ext))
    (hplan : planItem g ext baseDir = .ok (dir, path))
    (hmkdir : env.mkdirOk dir = true)
    (habsent : fs.files.lookup path = none)
    (hfetch : env.fetchAsset url = .ok resp)
    (hwrite : env.writeBeh path = .writeFail leftover) :
    (_download_gif env g baseDir fs).result =
      .error (.IOError "write failed") ∧
    (_download_gif env g baseDir fs).fs.files.lookup path = some leftover ∧
    (_download_gif env g baseDir
      ((_download_gif env g baseDir fs).fs)).result = .ok () ∧
    (_download_gif env g baseDir
      ((_download_gif env g baseDir fs).fs)).requests = [] ∧
    (_download_gif env g baseDir
        ((_download_gif env g baseDir fs).fs)).fs.files =
      (_download_gif env g baseDir fs).fs.files := by
  have hstep : _download_gif env g baseDir fs =
      ⟨⟨(path, leftover) :: fs.files, insertDir dir fs.dirs⟩, [url],
        .error (.IOError "write failed")⟩ := by
    simp [_download_gif, hloc, hplan, hmkdir, habsent, hfetch, hwrite]
  rw [hstep]
  refine ⟨rfl, ?_, ?_⟩
  · simp [List.lookup]
  · simp [_download_gif, hloc, hplan, hmkdir, List.lookup]

/-- Witness for C10: `envWF` fails the write for `itemA`, the truncated
file persists, and a second run skips the item. -/
theorem failed_write_persists_witness :
    (_download_gif envWF itemA "base" ⟨[], []⟩).result =
      .error (.IOError "write failed") ∧
    (_download_gif envWF itemA "base" ⟨[], []⟩).fs.files.lookup pathA =
      some [1] ∧
    (_download_gif envWF itemA "base"
      ((_download_gif envWF itemA "base" ⟨[], []⟩).fs)).result = .ok () ∧
    (_download_gif envWF itemA "base"
      ((_download_gif envWF itemA "base" ⟨[], []⟩).fs)).requests = [] ∧
    (_download_gif envWF itemA "base"
        ((_download_gif envWF itemA "base" ⟨[], []⟩).fs)).fs.files =
      (_download_gif envWF itemA "base" ⟨[], []⟩).fs.files :=
  failed_write_persists envWF itemA "base" "http://h/a.mp4" "mp4"
    "base/alice" pathA ⟨[], []⟩ ⟨200, [1, 2, 3]⟩ [1] rfl rfl rfl rfl rfl rfl

end ArchiveGiphy
